import Mathlib

/-!
Verification of the firehose geyser plugin core (`src/block_printer.rs`,
`src/state.rs`, `src/plugins.rs`, `src/utils.rs`).

The stateful Rust code is shallowly embedded: the `HashMap` fields of
`State` become association lists with map semantics (insert replaces,
erase removes), machine integers (`u64`) become `Nat`, and the unchecked
`u64` subtractions of the source are modelled by a checked subtraction
returning `Option Nat` (`none` models the panicking underflow).  I/O
collaborators (the RPC clients, block printer pipes and mutex poisoning)
are modelled by explicit oracles passed to the operations that use them.
-/

namespace Geyser

/-- Keys of account maps: a `Vec<u8>` of the source. -/
abbrev Bytes := List Nat

/-- Checked `u64` subtraction: the source's unchecked `a - b`, `none`
modelling the underflow panic. -/
def checkedSub (a b : Nat) : Option Nat :=
  if b ≤ a then some (a - b) else none

/-! ### Finite maps as association lists (model of `HashMap`) -/

/-- First-match lookup in an association list. -/
def fmLookup {κ α : Type} [DecidableEq κ] : List (κ × α) → κ → Option α
  | [], _ => none
  | p :: rest, k => if p.1 = k then some p.2 else fmLookup rest k

/-- Remove every pair with the given key (model of `HashMap::remove`). -/
def fmErase {κ α : Type} [DecidableEq κ] : List (κ × α) → κ → List (κ × α)
  | [], _ => []
  | p :: rest, k => if p.1 = k then fmErase rest k else p :: fmErase rest k

/-- Insert-or-replace (model of `HashMap::insert`). -/
def fmInsert {κ α : Type} [DecidableEq κ] (m : List (κ × α)) (k : κ) (v : α) :
    List (κ × α) :=
  (k, v) :: fmErase m k

/-- The key list of a map (model of `HashMap::keys`). -/
def fmKeys {κ α : Type} (m : List (κ × α)) : List κ :=
  m.map Prod.fst

theorem fmLookup_fmErase {κ α : Type} [DecidableEq κ] (m : List (κ × α)) (k t : κ) :
    fmLookup (fmErase m k) t = if t = k then none else fmLookup m t := by
  induction m with
  | nil => simp [fmErase, fmLookup]
  | cons p rest ih =>
    by_cases hpk : p.1 = k
    · by_cases htk : t = k
      · simp only [fmErase, hpk, if_pos rfl, htk] at ih ⊢
        simpa using ih
      · have hpt : p.1 ≠ t := by rw [hpk]; exact fun h => htk h.symm
        have hkt : k ≠ t := fun h => htk h.symm
        simp [fmErase, fmLookup, hpk, htk, hpt, hkt, ih]
    · by_cases hpt : p.1 = t
      · have htk : t ≠ k := by rw [← hpt]; exact hpk
        simp [fmErase, fmLookup, hpk, hpt, htk]
      · simp [fmErase, fmLookup, hpk, hpt, ih]

theorem fmLookup_fmInsert {κ α : Type} [DecidableEq κ] (m : List (κ × α)) (k t : κ)
    (v : α) :
    fmLookup (fmInsert m k v) t = if t = k then some v else fmLookup m t := by
  by_cases htk : t = k
  · simp [fmInsert, fmLookup, htk]
  · have hkt : k ≠ t := fun h => htk h.symm
    simp [fmInsert, fmLookup, hkt, htk, fmLookup_fmErase]

theorem fmLookup_some_mem_fmKeys {κ α : Type} [DecidableEq κ]
    {m : List (κ × α)} {k : κ} {v : α} (h : fmLookup m k = some v) :
    k ∈ fmKeys m := by
  induction m with
  | nil => simp [fmLookup] at h
  | cons p rest ih =>
    by_cases hpk : p.1 = k
    · simp [fmKeys, hpk]
    · simp only [fmLookup, hpk, if_false] at h
      simp [fmKeys] at ih ⊢
      exact Or.inr (ih h)

/-! ### Cursor writer (`block_printer.rs`, `write_cursor`)

The protected integer behind `CURSOR_MUTEX` together with the cursor
file contents (the ASCII decimal text last written, `none` if the file
was never written). -/

structure CursorState where
  last : Nat
  file : Option String
  deriving DecidableEq, Repr

/-- `write_cursor` of `block_printer.rs`: state transition on the
protected integer and the cursor file. -/
def write_cursor (st : CursorState) (cursor : Nat) : CursorState :=
  if st.last < cursor then { st with last := cursor }
  else if st.last = cursor then { st with file := some (Nat.repr cursor) }
  else st

/-- `write_cursor` together with the integer value it writes to the
cursor file on this call (`none` when it does not write). -/
def write_cursor_emit (st : CursorState) (cursor : Nat) : CursorState × Option Nat :=
  if st.last < cursor then ({ st with last := cursor }, none)
  else if st.last = cursor then ({ st with file := some (Nat.repr cursor) }, some cursor)
  else (st, none)

theorem write_cursor_emit_fst (st : CursorState) (cursor : Nat) :
    (write_cursor_emit st cursor).1 = write_cursor st cursor := by
  unfold write_cursor_emit write_cursor
  split
  · rfl
  · split <;> rfl

/-- The sequence of integer values written to the cursor file by a
sequence of `write_cursor` calls starting from the given state. -/
def cursor_writes (st : CursorState) : List Nat → List Nat
  | [] => []
  | c :: rest =>
    let r := write_cursor_emit st c
    match r.2 with
    | some w => w :: cursor_writes r.1 rest
    | none => cursor_writes r.1 rest

theorem cursor_writes_sorted_aux (inputs : List Nat) :
    ∀ st : CursorState,
      (∀ w ∈ cursor_writes st inputs, st.last ≤ w) ∧
      List.Pairwise (· ≤ ·) (cursor_writes st inputs) := by
  induction inputs with
  | nil => intro st; exact ⟨by intro w hw; simp [cursor_writes] at hw, List.Pairwise.nil⟩
  | cons c rest ih =>
    intro st
    by_cases h1 : st.last < c
    · have hrw : cursor_writes st (c :: rest) =
          cursor_writes { st with last := c } rest := by
        simp [cursor_writes, write_cursor_emit, h1]
      obtain ⟨hbound, hsorted⟩ := ih { st with last := c }
      refine ⟨?_, by rw [hrw]; exact hsorted⟩
      intro w hw
      rw [hrw] at hw
      exact le_of_lt (lt_of_lt_of_le h1 (hbound w hw))
    · by_cases h2 : st.last = c
      · have hrw : cursor_writes st (c :: rest) =
            c :: cursor_writes { st with file := some (Nat.repr c) } rest := by
          simp [cursor_writes, write_cursor_emit, h1, h2]
        obtain ⟨hbound, hsorted⟩ := ih { st with file := some (Nat.repr c) }
        have hlast : ({ st with file := some (Nat.repr c) } : CursorState).last = st.last := rfl
        constructor
        · intro w hw
          rw [hrw] at hw
          rcases List.mem_cons.mp hw with hw | hw
          · rw [hw, h2]
          · exact hlast ▸ hbound w hw
        · rw [hrw]
          refine List.Pairwise.cons ?_ hsorted
          intro w hw
          have := hbound w hw
          rw [hlast, h2] at this
          exact this
      · have hrw : cursor_writes st (c :: rest) = cursor_writes st rest := by
          simp [cursor_writes, write_cursor_emit, h1, h2]
        obtain ⟨hbound, hsorted⟩ := ih st
        exact ⟨fun w hw => hbound w (hrw ▸ hw), hrw ▸ hsorted⟩

/-- Claim C1: one call to the cursor writer with value `slot`: if
`slot > last_seen` then `last_seen` is set to `slot` and the file is not
written; if `slot == last_seen` then `slot` is written to the cursor
file as ASCII decimal text; if `slot < last_seen` nothing changes. -/
theorem claim_C1 (st : CursorState) (slot : Nat) :
    (st.last < slot → write_cursor st slot = { last := slot, file := st.file }) ∧
    (slot = st.last →
      write_cursor st slot = { last := st.last, file := some (Nat.repr slot) }) ∧
    (slot < st.last → write_cursor st slot = st) := by
  refine ⟨?_, ?_, ?_⟩
  · intro h
    simp [write_cursor, h]
  · intro h
    have h1 : ¬ st.last < slot := by omega
    simp [write_cursor, h1, h.symm]
  · intro h
    have h1 : ¬ st.last < slot := by omega
    have h2 : st.last ≠ slot := by omega
    simp [write_cursor, h1, h2]

/-- Witness for C1 at concrete inputs: one call in each of the three
regimes (ahead, equal, behind). -/
theorem claim_C1_witness :
    write_cursor ⟨3, none⟩ 5 = ⟨5, none⟩ ∧
    write_cursor ⟨5, none⟩ 5 = ⟨5, some (Nat.repr 5)⟩ ∧
    write_cursor ⟨5, some (Nat.repr 4)⟩ 3 = ⟨5, some (Nat.repr 4)⟩ :=
  ⟨(claim_C1 ⟨3, none⟩ 5).1 (by decide),
   (claim_C1 ⟨5, none⟩ 5).2.1 rfl,
   (claim_C1 ⟨5, some (Nat.repr 4)⟩ 3).2.2 (by decide)⟩

/-- Claim C2: for any sequence of calls to `write_cursor` (starting from
the initial protected integer 0 of `CURSOR_MUTEX`), the sequence of
integer values actually written to the cursor file is non-decreasing. -/
theorem claim_C2 (inputs : List Nat) :
    List.Pairwise (· ≤ ·) (cursor_writes ⟨0, none⟩ inputs) :=
  (cursor_writes_sorted_aux inputs ⟨0, none⟩).2

/-! ### Data model (`state.rs`) -/

/-- `pb::Reward` as carried in `BlockInfo` (fields opaque to the claims). -/
structure Reward where
  pubkey : String
  lamports : Int
  post_balance : Nat
  reward_type : Int
  commission : String

/-- `pb::Account` (`{address, data, owner, deleted}`). -/
structure Account where
  address : Bytes
  data : Bytes
  owner : Bytes
  deleted : Bool
  deriving DecidableEq

/-- `AccountWithWriteVersion` of `state.rs`. -/
structure AccountWithWriteVersion where
  account : Account
  write_version : Nat
  deriving DecidableEq

/-- `BlockInfo` of `state.rs`.  `timestamp` is the seconds field of the
prost `Timestamp` (its nanos are always 0 in `convert_sol_timestamp`). -/
structure BlockInfo where
  slot : Nat
  parent_slot : Nat
  block_hash : String
  parent_hash : String
  timestamp : Int
  height : Option Nat
  rewards : List Reward
  transaction_count : Nat

/-- `ConfirmTransactionWithIndex` of `plugins.rs`; the
`ConfirmedTransaction` payload is opaque to the state machine and is
modelled by a `Nat` tag. -/
structure ConfirmTransactionWithIndex where
  index : Nat
  transaction : Nat
  deriving DecidableEq

/-- `AccountChanges`: `pub_key → AccountWithWriteVersion` for one slot. -/
abbrev AccountChanges := List (Bytes × AccountWithWriteVersion)

/-- `State` of `state.rs`.  The two RPC clients, the block printer and
the cursor path are I/O handles; they are modelled by the oracles passed
to the operations that use them. -/
structure State where
  initialized : Bool
  first_received_blockmeta : Option Nat
  first_block_to_process : Option Nat
  last_sent_block : Option Nat
  cursor : Option Nat
  lib : Option Nat
  block_account_changes : List (Nat × AccountChanges)
  account_data_hash : List (Bytes × Nat)
  block_infos : List (Nat × BlockInfo)
  confirmed_slots : List (Nat × Bool)
  transactions : List (Nat × List ConfirmTransactionWithIndex)
  processed_slots : List (Nat × Bool)

/-- `State::new`. -/
def State.new (cursor : Option Nat) : State :=
  { cursor := cursor
    first_block_to_process := none
    first_received_blockmeta := none
    lib := none
    initialized := false
    block_account_changes := []
    account_data_hash := []
    block_infos := []
    confirmed_slots := []
    last_sent_block := none
    transactions := []
    processed_slots := [] }

/-- `State::set_last_finalized_block_from_rpc`; `res` is the outcome of
`get_slot_with_commitment(finalized)` (`none` = RPC error). -/
def State.set_last_finalized_block_from_rpc (st : State) (res : Option Nat) : State :=
  match res with
  | some lib_num =>
    let st1 := { st with lib := some lib_num }
    match st1.cursor with
    | some cursor =>
      if cursor < lib_num then
        { st1 with cursor := none, first_block_to_process := none }
      else st1
    | none => st1
  | none => st

/-- `State::set_lib`. -/
def State.set_lib (st : State) (slot : Nat) : State :=
  { st with lib := some slot }

/-- `State::should_skip_slot`. -/
def State.should_skip_slot (st : State) (slot : Nat) : Bool :=
  if st.initialized then false
  else if (match st.first_block_to_process with
           | some f => decide (slot < f)
           | none => false) then true
  else
    match st.cursor with
    | some cursor => decide (slot ≤ cursor)
    | none => false

/-- Body of the first loop of `State::purge_blocks_up_to` (over the
collected `block_account_changes` keys). -/
def purgeStepBlocks (upto : Nat) (s : State) (b : Nat) : State :=
  if b > upto then s
  else
    { s with block_account_changes := fmErase s.block_account_changes b
             block_infos := fmErase s.block_infos b }

/-- Body of the second loop of `State::purge_blocks_up_to` (over the
collected `confirmed_slots` keys). -/
def purgeStepConfirmed (upto : Nat) (s : State) (slot : Nat) : State :=
  if slot ≤ upto then
    if upto > 100 then
      { s with confirmed_slots := fmErase s.confirmed_slots slot
               processed_slots := fmErase s.processed_slots (upto - 100) }
    else { s with confirmed_slots := fmErase s.confirmed_slots slot }
  else s

/-- `State::purge_blocks_up_to`. -/
def State.purge_blocks_up_to (st : State) (upto : Nat) : State :=
  let blocks := fmKeys st.block_account_changes
  let st1 := blocks.foldl (purgeStepBlocks upto) st
  let slots := fmKeys st1.confirmed_slots
  slots.foldl (purgeStepConfirmed upto) st1

/-- `State::set_confirmed_slot`.  `none` models the `slot - 1` underflow
panic of the purge offset. -/
def State.set_confirmed_slot (st : State) (slot : Nat) : Option State :=
  if st.should_skip_slot slot then some st
  else
    let stepped : Option State :=
      match st.cursor with
      | some cursor =>
        if st.first_block_to_process.isNone then
          if cursor ≤ slot then
            (checkedSub slot 1).map
              (fun upto =>
                State.purge_blocks_up_to
                  { st with first_block_to_process := some slot } upto)
          else some st
        else some st
      | none => some st
    stepped.map
      (fun st1 => { st1 with confirmed_slots := fmInsert st1.confirmed_slots slot true })

/-- `State::has_block_info`. -/
def State.has_block_info (st : State) (slot : Nat) : Bool :=
  (fmLookup st.block_infos slot).isSome

/-- `State::is_ready`. -/
def State.is_ready (st : State) (slot : Nat) : Bool :=
  match fmLookup st.confirmed_slots slot with
  | none => false
  | some _ =>
    match fmLookup st.block_infos slot with
    | none => false
    | some blk =>
      match fmLookup st.transactions slot with
      | some trxs => blk.transaction_count == trxs.length
      | none => false

/-- The first-metadata step of `State::set_block_info`: record
`first_received_blockmeta` and, without a cursor, set
`first_block_to_process` and purge up to `slot - 1` (`none` models the
underflow panic). -/
def set_block_info_step (st0 : State) (slot : Nat) : Option State :=
  if st0.first_received_blockmeta.isNone then
    if st0.cursor.isNone then
      (checkedSub slot 1).map
        (fun upto =>
          State.purge_blocks_up_to
            { st0 with first_received_blockmeta := some slot
                       first_block_to_process := some slot } upto)
    else some { st0 with first_received_blockmeta := some slot }
  else some st0

/-- `State::set_block_info`; `rpc_lib` is the finalized-slot RPC outcome
used when LIB is unset. -/
def State.set_block_info (st : State) (block_info : BlockInfo) (rpc_lib : Option Nat) :
    Option State :=
  (set_block_info_step
      (if st.lib.isNone then st.set_last_finalized_block_from_rpc rpc_lib else st)
      block_info.slot).map
    (fun st2 =>
      { st2 with block_infos := fmInsert st2.block_infos block_info.slot block_info })

/-- The deduplication-and-insert tail of `State::set_account`, entered
after the cold-start purge: drop an older `write_version`, drop a
not-deleted write whose hash matches the table entry (both only when the
slot already buffers this key), otherwise insert and update the table. -/
def set_account_tail (st1 : State) (slot : Nat) (pub_key data owner : Bytes)
    (write_version : Nat) (deleted : Bool) (data_hash : Nat) : State :=
  let slot_entries := (fmLookup st1.block_account_changes slot).getD []
  let skip : Bool :=
    match fmLookup slot_entries pub_key with
    | none => false
    | some prev =>
      if write_version < prev.write_version then true
      else if !deleted then
        match fmLookup st1.account_data_hash pub_key with
        | some h => h == data_hash
        | none => false
      else false
  if skip then st1
  else
    let awv : AccountWithWriteVersion :=
      { account := { address := pub_key, data := data, owner := owner, deleted := deleted }
        write_version := write_version }
    { st1 with
      account_data_hash := fmInsert st1.account_data_hash pub_key data_hash
      block_account_changes :=
        fmInsert st1.block_account_changes slot (fmInsert slot_entries pub_key awv) }

/-- `State::set_account` (after the vote-owner filter of `plugins.rs`;
`data_hash` is the caller-computed content hash).  `none` models the
`slot - 32` underflow panic of the cold-start purge offset. -/
def State.set_account (st : State) (slot : Nat) (pub_key data owner : Bytes)
    (write_version : Nat) (deleted is_startup : Bool) (data_hash : Nat) : Option State :=
  if is_startup then
    some { st with account_data_hash := fmInsert st.account_data_hash pub_key data_hash }
  else
    let purged : Option State :=
      if (fmLookup st.block_account_changes slot).isNone
          && st.cursor.isNone && st.first_block_to_process.isNone then
        (checkedSub slot 32).map (fun upto => st.purge_blocks_up_to upto)
      else some st
    purged.map (fun st1 =>
      set_account_tail st1 slot pub_key data owner write_version deleted data_hash)

/-- `State::set_transaction` (the already-processed check only logs). -/
def State.set_transaction (st : State) (slot : Nat)
    (t : ConfirmTransactionWithIndex) : State :=
  match fmLookup st.transactions slot with
  | some txs => { st with transactions := fmInsert st.transactions slot (txs ++ [t]) }
  | none => { st with transactions := fmInsert st.transactions slot [t] }

/-! ### Artifact builders (`utils.rs`, `compose_and_purge_block`) -/

/-- `pb::AccountBlock`. -/
structure AccountBlock where
  slot : Nat
  hash : String
  parent_hash : String
  parent_slot : Nat
  accounts : List Account
  timestamp : Int

/-- `pb::Block` (transaction payloads opaque, see
`ConfirmTransactionWithIndex`). -/
structure Block where
  previous_blockhash : String
  blockhash : String
  slot : Nat
  transactions : List Nat
  rewards : List Reward
  block_time : Int
  parent_slot : Nat
  block_height : Option Nat

/-- Ascending insertion sort on `Nat` (model of `Vec::sort`). -/
def insertNat (x : Nat) : List Nat → List Nat
  | [] => [x]
  | y :: rest => if x ≤ y then x :: y :: rest else y :: insertNat x rest

/-- Ascending sort of a `Nat` list. -/
def sortNat : List Nat → List Nat
  | [] => []
  | x :: rest => insertNat x (sortNat rest)

/-- Lexicographic `<` on byte vectors (`Vec<u8>::cmp`). -/
def bytesLt : Bytes → Bytes → Bool
  | [], [] => false
  | [], _ :: _ => true
  | _ :: _, [] => false
  | a :: as, b :: bs => if a < b then true else if b < a then false else bytesLt as bs

/-- Stable insertion by ascending `address` (model of
`accounts.sort_by(|a, b| a.address.cmp(&b.address))`). -/
def insertAccount (a : Account) : List Account → List Account
  | [] => [a]
  | b :: rest =>
    if bytesLt a.address b.address || decide (a.address = b.address) then a :: b :: rest
    else b :: insertAccount a rest

/-- Sort accounts ascending by address bytes. -/
def sortAccounts : List Account → List Account
  | [] => []
  | a :: rest => insertAccount a (sortAccounts rest)

/-- Stable insertion by ascending `index` (model of
`sort_by_key(|ti| ti.index)`). -/
def insertByIndex (t : ConfirmTransactionWithIndex) :
    List ConfirmTransactionWithIndex → List ConfirmTransactionWithIndex
  | [] => [t]
  | u :: rest => if t.index ≤ u.index then t :: u :: rest else u :: insertByIndex t rest

/-- Sort transactions ascending by within-slot index. -/
def sortByIndex : List ConfirmTransactionWithIndex → List ConfirmTransactionWithIndex
  | [] => []
  | t :: rest => insertByIndex t (sortByIndex rest)

/-- `create_account_block` of `utils.rs` (the derived-account branch
only logs). -/
def create_account_block (account_changes : AccountChanges)
    (block_info : BlockInfo) : AccountBlock :=
  { slot := block_info.slot
    hash := block_info.block_hash
    parent_hash := block_info.parent_hash
    parent_slot := block_info.parent_slot
    accounts := sortAccounts (account_changes.map (fun p => p.2.account))
    timestamp := block_info.timestamp }

/-- `compose_and_purge_block` of `state.rs`. -/
def compose_and_purge_block (slot : Nat) (block_info : BlockInfo)
    (transactions_with_index : List ConfirmTransactionWithIndex) : Block :=
  { previous_blockhash := block_info.parent_hash
    blockhash := block_info.block_hash
    slot := slot
    transactions := transactions_with_index.map (fun ti => ti.transaction)
    rewards := block_info.rewards
    block_time := block_info.timestamp
    parent_slot := block_info.parent_slot
    block_height := block_info.height }

/-! ### The processing loop (`state.rs`, `process_upto` and helpers) -/

/-- `State::ordered_confirmed_slots_upto`. -/
def State.ordered_confirmed_slots_upto (st : State) (slot : Nat) : List Nat :=
  sortNat ((fmKeys st.confirmed_slots).filter (fun x => decide (x ≤ slot)))

/-- Loop of `State::add_missing_slots_to_confirmed_slots`, walking
`parent_slot` links from `i` down to `last_sent`.  `rpcBlock` is the
local-then-remote `get_block_with_config` fallback chain of
`cache_block_from_rpc` (`none` = both fail); `rpc_lib` feeds the nested
`set_block_info`.  The third component collects the slots fetched over
RPC.  The loop of the source does not terminate if a parent link fails
to decrease, which the fuel models by `none`. -/
def addMissingLoop (rpcBlock : Nat → Option BlockInfo) (rpc_lib : Option Nat)
    (last_sent : Nat) : Nat → Nat → State → List Nat → Option (State × Bool × List Nat)
  | 0, _, _, _ => none
  | fuel + 1, i, st, fetched =>
    if last_sent < i then
      match fmLookup st.block_infos i with
      | some bi =>
        addMissingLoop rpcBlock rpc_lib last_sent fuel bi.parent_slot
          { st with confirmed_slots := fmInsert st.confirmed_slots i true } fetched
      | none =>
        match rpcBlock i with
        | some raw =>
          match State.set_block_info st { raw with slot := i } rpc_lib with
          | none => none
          | some st1 =>
            match fmLookup st1.block_infos i with
            | some bi =>
              addMissingLoop rpcBlock rpc_lib last_sent fuel bi.parent_slot
                { st1 with confirmed_slots := fmInsert st1.confirmed_slots i true }
                (fetched ++ [i])
            | none => some (st1, false, fetched ++ [i])
        | none => some (st, false, fetched ++ [i])
    else some (st, i == last_sent, fetched)

/-- `State::add_missing_slots_to_confirmed_slots`. -/
def State.add_missing_slots_to_confirmed_slots (st : State)
    (rpcBlock : Nat → Option BlockInfo) (rpc_lib : Option Nat)
    (last_sent parent_slot : Nat) : Option (State × Bool × List Nat) :=
  addMissingLoop rpcBlock rpc_lib last_sent (parent_slot + 1) parent_slot st []

/-- The state mutation of a successful emission inside `process_upto`
(lines setting `last_sent_block`, purging and recording the slot). -/
def State.emit_success (st : State) (slot : Nat) (block_info : BlockInfo) : State :=
  let st1 := { st with last_sent_block := some block_info.slot }
  let st2 := st1.purge_blocks_up_to slot
  { st2 with processed_slots := fmInsert st2.processed_slots slot true }

/-- One emitted slot: the two artifacts handed to the printer. -/
structure Emitted where
  slot : Nat
  block : Block
  account_block : AccountBlock

/-- The gap check of the `process_upto` loop: `last_sent_block` is set
and is below the parent of the slot about to be emitted. -/
def processGap (st : State) (block_info : BlockInfo) : Bool :=
  match st.last_sent_block with
  | some lsb => decide (lsb < block_info.parent_slot)
  | none => false

/-- Removal of the slot's buffered transactions
(`self.transactions.remove(&slot)`), performed before printing. -/
def State.remove_trxs (st : State) (s : Nat) : State :=
  { st with transactions := fmErase st.transactions s }

/-- The two artifacts handed to the printer for a slot: the `Block`
(transactions sorted by index) and the `AccountBlock`. -/
def emit_artifacts (st : State) (s : Nat) (block_info : BlockInfo) : Emitted :=
  ⟨s,
   compose_and_purge_block s block_info
     (sortByIndex ((fmLookup st.transactions s).getD [])),
   create_account_block ((fmLookup st.block_account_changes s).getD []) block_info⟩

/-- The I/O collaborators of `process_upto`: whether the printer write
of a slot succeeds, the RPC oracles of the gap backfill, and whether a
pipe mutex is poisoned. -/
structure EmitEnv where
  printOk : Nat → Bool
  rpcBlock : Nat → Option BlockInfo
  rpc_lib : Option Nat
  poisoned : Bool

/-- The `for` loop of `process_upto` over the pre-computed ordered
confirmed slots.  Returns the final state, the `Result` (`true` = `Ok`),
and the emitted artifacts; `none` models a panic inside the backfill. -/
def processLoop (env : EmitEnv) (fbtp : Nat) :
    List Nat → State → List Emitted → Option (State × Bool × List Emitted)
  | [], st, emitted => some (st, true, emitted)
  | s :: rest, st, emitted =>
    if s < fbtp then processLoop env fbtp rest st emitted
    else
      match fmLookup st.block_infos s with
      | none => some (st, true, emitted)
      | some block_info =>
        if processGap st block_info then
          match st.add_missing_slots_to_confirmed_slots env.rpcBlock env.rpc_lib
              (st.last_sent_block.getD 0) s with
          | none => none
          | some r => some (r.1, true, emitted)
        else if env.printOk s then
          if env.poisoned then
            some ((st.remove_trxs s).emit_success s block_info, false,
              emitted ++ [emit_artifacts st s block_info])
          else
            processLoop env fbtp rest ((st.remove_trxs s).emit_success s block_info)
              (emitted ++ [emit_artifacts st s block_info])
        else some (st.remove_trxs s, false, emitted)

/-- `State::process_upto`. -/
def State.process_upto (env : EmitEnv) (st : State) (slot : Nat) :
    Option (State × Bool × List Emitted) :=
  match st.first_block_to_process with
  | none => some (st, true, [])
  | some first_block_to_process =>
    match st.first_received_blockmeta with
    | none => some (st, true, [])
    | some first_received_blockmeta =>
      match st.lib with
      | none => some (st, true, [])
      | some _lib =>
        let st0 :=
          if slot == first_received_blockmeta then { st with initialized := true } else st
        processLoop env first_block_to_process
          (st0.ordered_confirmed_slots_upto slot) st0 []

/-! ### Concrete fixtures (mirroring `test_block_info` of the source
tests) -/

/-- A `BlockInfo` fixture with the given slot, parent and transaction
count. -/
def mkBI (slot parent txc : Nat) : BlockInfo :=
  { slot := slot
    parent_slot := parent
    block_hash := ""
    parent_hash := ""
    timestamp := 0
    height := none
    rewards := []
    transaction_count := txc }

/-- An emission environment whose printer always succeeds and whose RPC
oracles always fail (they are never consulted in the runs below). -/
def envOk : EmitEnv :=
  { printOk := fun _ => true
    rpcBlock := fun _ => none
    rpc_lib := none
    poisoned := false }

/-! ### Claim C4: the readiness predicate -/

/-- A state reached from `State::new` by `set_block_info` for slot 5
with `transaction_count = 0` (RPC LIB 3) followed by
`set_confirmed_slot 5`; no transaction is ever received. -/
def c4st : State :=
  ((((State.new none).set_block_info (mkBI 5 4 0) (some 3)).bind
      (fun st => st.set_confirmed_slot 5))).getD (State.new none)

/-- Counterexample to claim C4: a confirmed slot with `BlockInfo`
present, `transaction_count = 0` and no transaction received has
`is_ready = false`, because `is_ready` requires a transactions entry to
exist; the claim says it returns true (0 == 0). -/
theorem claim_C4_counterexample :
    fmLookup c4st.confirmed_slots 5 = some true ∧
    fmLookup c4st.block_infos 5 = some (mkBI 5 4 0) ∧
    (mkBI 5 4 0).transaction_count = 0 ∧
    fmLookup c4st.transactions 5 = none ∧
    c4st.is_ready 5 = false :=
  ⟨rfl, rfl, rfl, rfl, rfl⟩

/-- Claim C4 (amended): `is_ready slot` returns true iff `slot` is in
ConfirmedSet, `BlockInfo slot` is present, a transactions entry for
`slot` exists, and its length equals `transaction_count`; in particular
a confirmed slot with `transaction_count = 0` for which no transaction
has been received is not ready. -/
theorem claim_C4 (st : State) (slot : Nat) :
    st.is_ready slot = true ↔
      (fmLookup st.confirmed_slots slot).isSome = true ∧
      ∃ bi trxs, fmLookup st.block_infos slot = some bi ∧
        fmLookup st.transactions slot = some trxs ∧
        bi.transaction_count = trxs.length := by
  unfold State.is_ready
  constructor
  · intro h
    split at h
    · exact absurd h (by simp)
    next c hc =>
      split at h
      · exact absurd h (by simp)
      next blk hb =>
        split at h
        next trxs ht =>
          exact ⟨by simp [hc], blk, trxs, hb, ht, by simpa using h⟩
        next ht => exact absurd h (by simp)
  · rintro ⟨hc, bi, trxs, hb, ht, he⟩
    rcases Option.isSome_iff_exists.mp hc with ⟨c, hc2⟩
    simp [hc2, hb, ht, he]

/-! ### Claim C6: gap backfill over buffered parent links -/

/-- The state of the `test_add_missing_slots_to_confirmed_slots`
scenario: `BlockInfo` chain `1←2←4←6` and `last_sent_block = 1`. -/
def stC6 : State :=
  { State.new none with
      initialized := true
      last_sent_block := some 1
      block_infos :=
        [(1, mkBI 1 0 0), (2, mkBI 2 1 0), (4, mkBI 4 2 0), (6, mkBI 6 4 0)] }

/-- Claim C6: with the `1←2←4←6` chain buffered and `last_sent = 1`,
`add_missing_slots_to_confirmed_slots 1 6` inserts 2, 4 and 6 into
ConfirmedSet, does not insert 1, performs no RPC lookup (the fetched
list is empty, against an oracle that would fail) and returns true. -/
theorem claim_C6 :
    ∃ st, stC6.add_missing_slots_to_confirmed_slots (fun _ => none) none 1 6 =
        some (st, true, []) ∧
      fmLookup st.confirmed_slots 2 = some true ∧
      fmLookup st.confirmed_slots 4 = some true ∧
      fmLookup st.confirmed_slots 6 = some true ∧
      fmLookup st.confirmed_slots 1 = none :=
  ⟨_, rfl, rfl, rfl, rfl, rfl⟩

/-! ### Claim C7: learning LIB from RPC -/

theorem rpc_first_received_blockmeta (st : State) (res : Option Nat) :
    (st.set_last_finalized_block_from_rpc res).first_received_blockmeta =
      st.first_received_blockmeta := by
  unfold State.set_last_finalized_block_from_rpc
  cases res with
  | none => rfl
  | some v =>
    cases hc : st.cursor with
    | none => simp [hc]
    | some c =>
      simp only [hc]
      split <;> rfl

theorem rpc_cursor_none (st : State) (res : Option Nat) (h : st.cursor = none) :
    (st.set_last_finalized_block_from_rpc res).cursor = none := by
  unfold State.set_last_finalized_block_from_rpc
  cases res with
  | none => exact h
  | some v => simp [h]

/-- Claim C7: when LIB is unset and the RPC fetch succeeds with `v`, LIB
is set to `v`; a restart cursor less than `v` is cleared together with
`first_block_to_process`; a cursor at least `v` is left unchanged; on
RPC error the state is unchanged. -/
theorem claim_C7 (st : State) (res : Option Nat) (hlib : st.lib = none) :
    (∀ v, res = some v →
      (st.set_last_finalized_block_from_rpc res).lib = some v ∧
      (∀ c, st.cursor = some c → c < v →
        (st.set_last_finalized_block_from_rpc res).cursor = none ∧
        (st.set_last_finalized_block_from_rpc res).first_block_to_process = none) ∧
      (∀ c, st.cursor = some c → v ≤ c →
        (st.set_last_finalized_block_from_rpc res).cursor = some c ∧
        (st.set_last_finalized_block_from_rpc res).first_block_to_process =
          st.first_block_to_process)) ∧
    (res = none → st.set_last_finalized_block_from_rpc res = st) := by
  constructor
  · intro v hv
    subst hv
    refine ⟨?_, ?_, ?_⟩
    · unfold State.set_last_finalized_block_from_rpc
      cases hc : st.cursor with
      | none => simp [hc]
      | some c =>
        simp only [hc]
        split <;> rfl
    · intro c hc hlt
      unfold State.set_last_finalized_block_from_rpc
      simp [hc, hlt]
    · intro c hc hge
      have : ¬ c < v := by omega
      unfold State.set_last_finalized_block_from_rpc
      simp [hc, this]
  · intro hv
    subst hv
    rfl

/-- Witness for C7: a state with cursor 5 and LIB unset, cleared by RPC
value 10; and an error outcome leaving the state unchanged. -/
theorem claim_C7_witness :
    ((State.new (some 5)).set_last_finalized_block_from_rpc (some 10)).lib = some 10 ∧
    ((State.new (some 5)).set_last_finalized_block_from_rpc (some 10)).cursor = none ∧
    (State.new (some 5)).set_last_finalized_block_from_rpc none = State.new (some 5) :=
  ⟨((claim_C7 (State.new (some 5)) (some 10) rfl).1 10 rfl).1,
   (((claim_C7 (State.new (some 5)) (some 10) rfl).1 10 rfl).2.1 5 rfl (by decide)).1,
   (claim_C7 (State.new (some 5)) none rfl).2 rfl⟩

/-! ### Claim C10: totality of the purge offsets -/

/-- Claim C10: the purge offsets are computed by unchecked `u64`
subtraction — `slot − 32` in `set_account` (new slot, no cursor, no
`first_block_to_process`), `slot − 1` in `set_block_info` (first
metadata, no cursor) and in `set_confirmed_slot` (cursor present,
`first_block_to_process` unset, `slot ≥ cursor`).  For `slot ≥ 32`
(respectively `slot ≥ 1`) they are well-defined, and they underflow at
`slot = 31` (respectively `slot = 0`), so the operations are not total
over all slot values. -/
theorem claim_C10 :
    (∀ (st : State) (slot : Nat) (k d o : Bytes) (wv : Nat) (del : Bool) (dh : Nat),
      st.cursor = none → st.first_block_to_process = none →
      fmLookup st.block_account_changes slot = none → 32 ≤ slot →
      (st.set_account slot k d o wv del false dh).isSome = true) ∧
    ((State.new none).set_account 31 [1] [] [] 1 false false 0 = none) ∧
    (∀ (st : State) (bi : BlockInfo) (rpc : Option Nat),
      st.first_received_blockmeta = none → st.cursor = none → 1 ≤ bi.slot →
      (st.set_block_info bi rpc).isSome = true) ∧
    ((State.new none).set_block_info (mkBI 0 0 0) none = none) ∧
    (∀ (st : State) (slot : Nat), 1 ≤ slot →
      (st.set_confirmed_slot slot).isSome = true) ∧
    (({ State.new (some 0) with initialized := true } : State).set_confirmed_slot 0
      = none) := by
  refine ⟨?_, rfl, ?_, rfl, ?_, rfl⟩
  · intro st slot k d o wv del dh hcur hfb hlook hge
    have hsub : checkedSub slot 32 = some (slot - 32) := by
      unfold checkedSub
      simp [hge]
    simp [State.set_account, hlook, hcur, hfb, hsub]
  · intro st bi rpc hfrb hcur hge
    have hsub : checkedSub bi.slot 1 = some (bi.slot - 1) := by
      unfold checkedSub
      simp [hge]
    cases hl : st.lib with
    | some v => simp [State.set_block_info, set_block_info_step, hl, hfrb, hcur, hsub]
    | none =>
      have h0 := rpc_first_received_blockmeta st rpc
      have h1 := rpc_cursor_none st rpc hcur
      simp [State.set_block_info, set_block_info_step, hl, hfrb, hcur, h0, h1, hsub]
  · intro st slot hge
    have hsub : checkedSub slot 1 = some (slot - 1) := by
      unfold checkedSub
      simp [hge]
    by_cases hskip : st.should_skip_slot slot = true
    · simp [State.set_confirmed_slot, hskip]
    · cases hc : st.cursor with
      | none => simp [State.set_confirmed_slot, hskip, hc]
      | some c =>
        by_cases hf : st.first_block_to_process.isNone = true
        · by_cases hcs : c ≤ slot
          · simp [State.set_confirmed_slot, hskip, hc, hf, hcs, hsub]
          · simp [State.set_confirmed_slot, hskip, hc, hf, hcs]
        · simp [State.set_confirmed_slot, hskip, hc, hf]

/-- Witness for C10 at concrete inputs: offsets are defined at
`slot = 32` for `set_account`, `slot = 1` for `set_block_info` and
`set_confirmed_slot`. -/
theorem claim_C10_witness :
    ((State.new none).set_account 32 [1] [] [] 1 false false 0).isSome = true ∧
    ((State.new none).set_block_info (mkBI 1 0 0) none).isSome = true ∧
    ((State.new (some 1)).set_confirmed_slot 1).isSome = true :=
  ⟨claim_C10.1 (State.new none) 32 [1] [] [] 1 false 0 rfl rfl rfl (by decide),
   claim_C10.2.2.1 (State.new none) (mkBI 1 0 0) none rfl rfl (by decide),
   claim_C10.2.2.2.2.1 (State.new (some 1)) 1 (by decide)⟩

/-! ### Claim C3: cross-slot redundancy suppression -/

/-- The key of the C3 and C8 scenarios. -/
def kk : Bytes := [1]

/-- The two `set_account` calls of the C3 scenario: identical data
(hence the identical caller-computed hash 7), `write_version = 1`, not
deleted, at slots 101 then 102. -/
def c3s2 : Option State :=
  ((State.new none).set_account 101 kk [170] [2] 1 false false 7).bind
    (fun st => st.set_account 102 kk [170] [2] 1 false false 7)

/-- …followed by block metadata for 101 and 102 (RPC LIB 90). -/
def c3s4 : Option State :=
  (c3s2.bind (fun st => st.set_block_info (mkBI 101 100 0) (some 90))).bind
    (fun st => st.set_block_info (mkBI 102 101 0) (some 90))

/-- …followed by confirmations of 101 and 102. -/
def c3s6 : Option State :=
  (c3s4.bind (fun st => st.set_confirmed_slot 101)).bind
    (fun st => st.set_confirmed_slot 102)

/-- …and `process_upto 102`, emitting 101 then 102. -/
def c3run : Option (State × Bool × List Emitted) :=
  c3s6.bind (fun st => st.process_upto envOk 102)

/-- Claim C3 evaluated at its own scenario: the code emits the key in
BOTH AccountBlocks.  The data-hash redundancy check of `set_account`
only runs when the same slot already buffers the key, so the slot-102
write of unchanged data is not dropped and the AccountBlock for 102
contains `k` — the claim (and the startup-taught hash table) says it
must contain no entry for `k`. -/
theorem claim_C3 :
    ∃ st e1 e2, c3run = some (st, true, [e1, e2]) ∧
      e1.slot = 101 ∧
      e1.account_block.accounts.map (fun a => a.address) = [kk] ∧
      e2.slot = 102 ∧
      e2.account_block.accounts.map (fun a => a.address) = [kk] :=
  ⟨_, _, _, rfl, rfl, rfl, rfl, rfl⟩

/-! ### Claim C5: when the `initialized` flag flips -/

/-- A state reached from `State::new` by `set_block_info` for slot 100
(RPC LIB 90): `first_received_blockmeta = first_block_to_process = 100`,
LIB 90, nothing confirmed. -/
def c5st1 : State :=
  (((State.new none).set_block_info (mkBI 100 99 0) (some 90))).getD (State.new none)

/-- Counterexample to claim C5: calling `process_upto 100` on a state
whose `first_received_blockmeta` is 100 but whose ConfirmedSet is empty
emits nothing, yet sets `initialized = true` (the flag is set before
the emission loop, not upon successful emission). -/
theorem claim_C5_counterexample :
    ∃ st, c5st1.process_upto envOk 100 = some (st, true, []) ∧
      st.initialized = true ∧
      st.last_sent_block = none ∧
      c5st1.first_received_blockmeta = some 100 :=
  ⟨_, rfl, rfl, rfl, rfl⟩

/-! ### Claim C8: write-version ordering within a slot -/

/-- The two same-slot `set_account` calls of the C8 counterexample:
identical data (hash 7) at write versions 1 then 5. -/
def c8run : Option State :=
  ((State.new none).set_account 101 kk [170] [2] 1 false false 7).bind
    (fun st => st.set_account 101 kk [170] [2] 5 false false 7)

/-- Counterexample to claim C8: after writes with `write_version` 1 then
5 (identical data, not deleted), the retained entry still has
`write_version = 1` — the redundant-data drop fires even though the new
write has the maximal write version, so the retained write is not the
one with the maximum `write_version` seen (5). -/
theorem claim_C8_counterexample :
    ∃ st, c8run = some st ∧
      (fmLookup ((fmLookup st.block_account_changes 101).getD []) kk).map
        (fun a => a.write_version) = some 1 :=
  ⟨_, rfl, rfl⟩

/-! ### Claim C9: the state after a successful emission -/

/-- A run reaching a state with a stale ProcessedSet entry 50 and a
buffered `BlockInfo` for 150 with no account changes: emit slot 50,
then receive block metadata for 150 and 200 (parent 50), confirm 200. -/
def c9s6 : Option State :=
  (((((State.new none).set_block_info (mkBI 50 49 0) (some 40)).bind
        (fun st => st.set_confirmed_slot 50)).bind
      (fun st => (st.process_upto envOk 50).map (fun r => r.1))).bind
    (fun st => st.set_block_info (mkBI 150 149 0) none)).bind
    (fun st => st.set_block_info (mkBI 200 50 0) none)

/-- …then confirm 200 and `process_upto 200`, which emits slot 200. -/
def c9run : Option (State × Bool × List Emitted) :=
  (c9s6.bind (fun st => st.set_confirmed_slot 200)).bind
    (fun st => st.process_upto envOk 200)

/-- Counterexample to claim C9: after the successful emission of slot
200, the buffered `BlockInfo` for 150 (≤ 200) survives — the purge
removes block infos only for slots with an account-change buffer — and
ProcessedSet still contains 50 < 200 − 100 — the purge removes only the
single entry `200 − 100`. -/
theorem claim_C9_counterexample :
    ∃ st em, c9run = some (st, true, em) ∧
      em.map (fun e => e.slot) = [200] ∧
      st.last_sent_block = some 200 ∧
      (fmLookup st.block_infos 150).isSome = true ∧
      fmLookup st.processed_slots 50 = some true :=
  ⟨_, _, rfl, rfl, rfl, rfl, rfl⟩

/-! ### Fold lemmas for `purge_blocks_up_to` -/

theorem foldl_preserve {β : Type} (f : State → Nat → State) (g : State → β)
    (h : ∀ s b, g (f s b) = g s) :
    ∀ (L : List Nat) (st : State), g (L.foldl f st) = g st := by
  intro L
  induction L with
  | nil => intro st; rfl
  | cons a rest ih =>
    intro st
    rw [List.foldl_cons, ih, h]

theorem foldl_preserve_prop (f : State → Nat → State) (P : State → Prop)
    (h : ∀ s b, P s → P (f s b)) :
    ∀ (L : List Nat) (st : State), P st → P (L.foldl f st) := by
  intro L
  induction L with
  | nil => intro st hp; exact hp
  | cons a rest ih =>
    intro st hp
    rw [List.foldl_cons]
    exact ih _ (h st a hp)

theorem foldl_mem_establish (f : State → Nat → State) (P : State → Prop) (t : Nat)
    (hest : ∀ s, P (f s t)) (hpres : ∀ s b, P s → P (f s b)) :
    ∀ (L : List Nat) (st : State), t ∈ L → P (L.foldl f st) := by
  intro L
  induction L with
  | nil => intro st ht; cases ht
  | cons a rest ih =>
    intro st ht
    rw [List.foldl_cons]
    rcases List.mem_cons.mp ht with h | h
    · subst h
      exact foldl_preserve_prop f P hpres rest _ (hest st)
    · exact ih _ h

theorem purgeStepBlocks_confirmed (upto : Nat) (s : State) (b : Nat) :
    (purgeStepBlocks upto s b).confirmed_slots = s.confirmed_slots := by
  unfold purgeStepBlocks
  split <;> rfl

theorem purgeStepBlocks_processed (upto : Nat) (s : State) (b : Nat) :
    (purgeStepBlocks upto s b).processed_slots = s.processed_slots := by
  unfold purgeStepBlocks
  split <;> rfl

theorem purgeStepBlocks_initialized (upto : Nat) (s : State) (b : Nat) :
    (purgeStepBlocks upto s b).initialized = s.initialized := by
  unfold purgeStepBlocks
  split <;> rfl

theorem purgeStepBlocks_last_sent (upto : Nat) (s : State) (b : Nat) :
    (purgeStepBlocks upto s b).last_sent_block = s.last_sent_block := by
  unfold purgeStepBlocks
  split <;> rfl

theorem purgeStepConfirmed_bac (upto : Nat) (s : State) (slot : Nat) :
    (purgeStepConfirmed upto s slot).block_account_changes = s.block_account_changes := by
  unfold purgeStepConfirmed
  split
  · split <;> rfl
  · rfl

theorem purgeStepConfirmed_binfos (upto : Nat) (s : State) (slot : Nat) :
    (purgeStepConfirmed upto s slot).block_infos = s.block_infos := by
  unfold purgeStepConfirmed
  split
  · split <;> rfl
  · rfl

theorem purgeStepConfirmed_initialized (upto : Nat) (s : State) (slot : Nat) :
    (purgeStepConfirmed upto s slot).initialized = s.initialized := by
  unfold purgeStepConfirmed
  split
  · split <;> rfl
  · rfl

theorem purgeStepConfirmed_last_sent (upto : Nat) (s : State) (slot : Nat) :
    (purgeStepConfirmed upto s slot).last_sent_block = s.last_sent_block := by
  unfold purgeStepConfirmed
  split
  · split <;> rfl
  · rfl

theorem purge_initialized (st : State) (upto : Nat) :
    (st.purge_blocks_up_to upto).initialized = st.initialized := by
  unfold State.purge_blocks_up_to
  rw [foldl_preserve _ _ (purgeStepConfirmed_initialized upto),
    foldl_preserve _ _ (purgeStepBlocks_initialized upto)]

theorem purge_last_sent (st : State) (upto : Nat) :
    (st.purge_blocks_up_to upto).last_sent_block = st.last_sent_block := by
  unfold State.purge_blocks_up_to
  rw [foldl_preserve _ _ (purgeStepConfirmed_last_sent upto),
    foldl_preserve _ _ (purgeStepBlocks_last_sent upto)]

theorem purge_bac_none (st : State) (upto t : Nat) (ht : t ≤ upto) :
    fmLookup (st.purge_blocks_up_to upto).block_account_changes t = none := by
  unfold State.purge_blocks_up_to
  have hkeep : ∀ (L : List Nat) (s : State),
      fmLookup s.block_account_changes t = none →
      fmLookup ((L.foldl (purgeStepConfirmed upto) s)).block_account_changes t = none := by
    intro L s h
    rw [foldl_preserve _ _ (purgeStepConfirmed_bac upto)]
    exact h
  apply hkeep
  have hpres : ∀ s b, fmLookup s.block_account_changes t = none →
      fmLookup ((purgeStepBlocks upto s b)).block_account_changes t = none := by
    intro s b h
    unfold purgeStepBlocks
    split
    · exact h
    · show fmLookup (fmErase s.block_account_changes b) t = none
      rw [fmLookup_fmErase]
      split
      · rfl
      · exact h
  cases hl : fmLookup st.block_account_changes t with
  | none =>
    exact foldl_preserve_prop _ _ hpres _ _ hl
  | some v =>
    have hmem := fmLookup_some_mem_fmKeys hl
    refine foldl_mem_establish _ _ t ?_ hpres _ _ hmem
    intro s
    unfold purgeStepBlocks
    rw [if_neg (by omega)]
    show fmLookup (fmErase s.block_account_changes t) t = none
    rw [fmLookup_fmErase]
    simp

theorem purge_binfos_none (st : State) (upto t : Nat) (ht : t ≤ upto)
    (hmem : t ∈ fmKeys st.block_account_changes) :
    fmLookup (st.purge_blocks_up_to upto).block_infos t = none := by
  unfold State.purge_blocks_up_to
  have hkeep : ∀ (L : List Nat) (s : State),
      fmLookup s.block_infos t = none →
      fmLookup ((L.foldl (purgeStepConfirmed upto) s)).block_infos t = none := by
    intro L s h
    rw [foldl_preserve _ _ (purgeStepConfirmed_binfos upto)]
    exact h
  apply hkeep
  have hpres : ∀ s b, fmLookup s.block_infos t = none →
      fmLookup ((purgeStepBlocks upto s b)).block_infos t = none := by
    intro s b h
    unfold purgeStepBlocks
    split
    · exact h
    · show fmLookup (fmErase s.block_infos b) t = none
      rw [fmLookup_fmErase]
      split
      · rfl
      · exact h
  refine foldl_mem_establish _ _ t ?_ hpres _ _ hmem
  intro s
  unfold purgeStepBlocks
  rw [if_neg (by omega)]
  show fmLookup (fmErase s.block_infos t) t = none
  rw [fmLookup_fmErase]
  simp

theorem purge_confirmed_none (st : State) (upto t : Nat) (ht : t ≤ upto) :
    fmLookup (st.purge_blocks_up_to upto).confirmed_slots t = none := by
  unfold State.purge_blocks_up_to
  have hpres : ∀ s b, fmLookup s.confirmed_slots t = none →
      fmLookup ((purgeStepConfirmed upto s b)).confirmed_slots t = none := by
    intro s b h
    unfold purgeStepConfirmed
    split
    · have hbase : fmLookup (fmErase s.confirmed_slots b) t = none := by
        rw [fmLookup_fmErase]
        split
        · rfl
        · exact h
      split
      · exact hbase
      · exact hbase
    · exact h
  have hconf1 : ∀ (L : List Nat) (s : State),
      ((L.foldl (purgeStepBlocks upto) s)).confirmed_slots = s.confirmed_slots :=
    fun L s => foldl_preserve _ _ (purgeStepBlocks_confirmed upto) L s
  cases hl : fmLookup ((fmKeys st.block_account_changes).foldl
      (purgeStepBlocks upto) st).confirmed_slots t with
  | none => exact foldl_preserve_prop _ _ hpres _ _ hl
  | some v =>
    have hmem := fmLookup_some_mem_fmKeys hl
    refine foldl_mem_establish _ _ t ?_ hpres _ _ ?_
    · intro s
      unfold purgeStepConfirmed
      rw [if_pos ht]
      have hbase : fmLookup (fmErase s.confirmed_slots t) t = none := by
        rw [fmLookup_fmErase]
        simp
      split
      · exact hbase
      · exact hbase
    · exact hmem

theorem purge_processed_none (st : State) (upto c : Nat)
    (hc : c ∈ fmKeys st.confirmed_slots) (hcu : c ≤ upto) (h100 : 100 < upto) :
    fmLookup (st.purge_blocks_up_to upto).processed_slots (upto - 100) = none := by
  unfold State.purge_blocks_up_to
  have hpres : ∀ s b, fmLookup s.processed_slots (upto - 100) = none →
      fmLookup ((purgeStepConfirmed upto s b)).processed_slots (upto - 100) = none := by
    intro s b h
    unfold purgeStepConfirmed
    by_cases h1 : b ≤ upto
    · by_cases h2 : upto > 100
      · rw [if_pos h1, if_pos h2]
        show fmLookup (fmErase s.processed_slots (upto - 100)) (upto - 100) = none
        rw [fmLookup_fmErase]
        simp
      · rw [if_pos h1, if_neg h2]
        exact h
    · rw [if_neg h1]
      exact h
  have hest : ∀ s, fmLookup
      ((purgeStepConfirmed upto s c)).processed_slots (upto - 100) = none := by
    intro s
    unfold purgeStepConfirmed
    rw [if_pos hcu, if_pos h100]
    show fmLookup (fmErase s.processed_slots (upto - 100)) (upto - 100) = none
    rw [fmLookup_fmErase]
    simp
  have hmem : c ∈ fmKeys ((fmKeys st.block_account_changes).foldl
      (purgeStepBlocks upto) st).confirmed_slots := by
    rw [foldl_preserve _ _ (purgeStepBlocks_confirmed upto)]
    exact hc
  exact foldl_mem_establish _ _ c hest hpres _ _ hmem

/-! ### Claim C9 (amended) -/

/-- Claim C9 (amended): after the successful-emission step of
`process_upto` for a confirmed slot `s` with metadata `bi`:
`last_sent_block = bi.slot`; the account-change buffers of every slot
`≤ s` are removed, and the block infos of those slots that had an
account-change buffer (a slot with metadata but no account changes keeps
its `BlockInfo`); every ConfirmedSet membership `≤ s` is removed; `s` is
recorded in ProcessedSet; and, when `s > 100`, the single ProcessedSet
entry `s − 100` is removed (older entries survive). -/
theorem claim_C9 (st : State) (s : Nat) (bi : BlockInfo)
    (hconf : fmLookup st.confirmed_slots s = some true) :
    (st.emit_success s bi).last_sent_block = some bi.slot ∧
    (∀ t, t ≤ s → fmLookup (st.emit_success s bi).block_account_changes t = none) ∧
    (∀ t, t ≤ s → t ∈ fmKeys st.block_account_changes →
      fmLookup (st.emit_success s bi).block_infos t = none) ∧
    (∀ t, t ≤ s → fmLookup (st.emit_success s bi).confirmed_slots t = none) ∧
    fmLookup (st.emit_success s bi).processed_slots s = some true ∧
    (100 < s → fmLookup (st.emit_success s bi).processed_slots (s - 100) = none) := by
  refine ⟨?_, ?_, ?_, ?_, ?_, ?_⟩
  · show (State.purge_blocks_up_to { st with last_sent_block := some bi.slot } s).last_sent_block = some bi.slot
    rw [purge_last_sent]
  · intro t ht
    exact purge_bac_none { st with last_sent_block := some bi.slot } s t ht
  · intro t ht hmem
    exact purge_binfos_none { st with last_sent_block := some bi.slot } s t ht hmem
  · intro t ht
    exact purge_confirmed_none { st with last_sent_block := some bi.slot } s t ht
  · show fmLookup (fmInsert (State.purge_blocks_up_to { st with last_sent_block := some bi.slot } s).processed_slots s true) s = some true
    rw [fmLookup_fmInsert]
    simp
  · intro h100
    show fmLookup (fmInsert (State.purge_blocks_up_to { st with last_sent_block := some bi.slot } s).processed_slots s true) (s - 100) = none
    rw [fmLookup_fmInsert, if_neg (by omega : ¬ s - 100 = s)]
    exact purge_processed_none { st with last_sent_block := some bi.slot }
      s s (fmLookup_some_mem_fmKeys hconf) (le_refl s) h100

/-- A concrete state for the C9 witness: slot 200 confirmed, an
account-change buffer and a block info at 150, ProcessedSet entry 100. -/
def stW9 : State :=
  { State.new none with
      confirmed_slots := [(200, true)]
      block_account_changes := [(150, [])]
      block_infos := [(150, mkBI 150 149 0)]
      processed_slots := [(100, true)] }

/-- Witness for the amended C9 at a concrete emission of slot 200. -/
theorem claim_C9_witness :
    (stW9.emit_success 200 (mkBI 200 50 0)).last_sent_block = some 200 ∧
    fmLookup (stW9.emit_success 200 (mkBI 200 50 0)).block_account_changes 150 = none ∧
    fmLookup (stW9.emit_success 200 (mkBI 200 50 0)).block_infos 150 = none ∧
    fmLookup (stW9.emit_success 200 (mkBI 200 50 0)).confirmed_slots 200 = none ∧
    fmLookup (stW9.emit_success 200 (mkBI 200 50 0)).processed_slots 200 = some true ∧
    fmLookup (stW9.emit_success 200 (mkBI 200 50 0)).processed_slots 100 = none :=
  ⟨(claim_C9 stW9 200 (mkBI 200 50 0) rfl).1,
   (claim_C9 stW9 200 (mkBI 200 50 0) rfl).2.1 150 (by decide),
   (claim_C9 stW9 200 (mkBI 200 50 0) rfl).2.2.1 150 (by decide) (by decide),
   (claim_C9 stW9 200 (mkBI 200 50 0) rfl).2.2.2.1 200 (by decide),
   (claim_C9 stW9 200 (mkBI 200 50 0) rfl).2.2.2.2.1,
   (claim_C9 stW9 200 (mkBI 200 50 0) rfl).2.2.2.2.2 (by decide)⟩

/-! ### Claim C5 (amended): preservation of `initialized` -/

theorem rpc_initialized (st : State) (res : Option Nat) :
    (st.set_last_finalized_block_from_rpc res).initialized = st.initialized := by
  unfold State.set_last_finalized_block_from_rpc
  cases res with
  | none => rfl
  | some v =>
    cases hc : st.cursor with
    | none => simp [hc]
    | some c =>
      simp only [hc]
      split <;> rfl

theorem set_block_info_step_initialized (st0 : State) (slot : Nat) (a : State)
    (h : set_block_info_step st0 slot = some a) : a.initialized = st0.initialized := by
  unfold set_block_info_step at h
  split at h
  · split at h
    · rw [Option.map_eq_some'] at h
      obtain ⟨u, hu, hau⟩ := h
      rw [← hau, purge_initialized]
    · have ha := Option.some.inj h
      rw [← ha]
  · have ha := Option.some.inj h
    rw [← ha]

theorem set_block_info_initialized (st : State) (bi : BlockInfo) (rpc : Option Nat)
    (st2 : State) (h : st.set_block_info bi rpc = some st2) :
    st2.initialized = st.initialized := by
  unfold State.set_block_info at h
  rw [Option.map_eq_some'] at h
  obtain ⟨a, ha, hfa⟩ := h
  have h2 : st2.initialized = a.initialized := by rw [← hfa]
  rw [h2, set_block_info_step_initialized _ _ _ ha]
  split
  · exact rpc_initialized st rpc
  · rfl

theorem emit_success_initialized (st : State) (s : Nat) (bi : BlockInfo) :
    (st.emit_success s bi).initialized = st.initialized := by
  show (State.purge_blocks_up_to { st with last_sent_block := some bi.slot } s).initialized = st.initialized
  rw [purge_initialized]

theorem addMissingLoop_initialized (rpcB : Nat → Option BlockInfo) (rpcL : Option Nat)
    (last_sent : Nat) :
    ∀ (fuel i : Nat) (st : State) (fetched : List Nat) (out : State × Bool × List Nat),
      addMissingLoop rpcB rpcL last_sent fuel i st fetched = some out →
      out.1.initialized = st.initialized := by
  intro fuel
  induction fuel with
  | zero =>
    intro i st fetched out h
    exact absurd h (by simp [addMissingLoop])
  | succ fuel ih =>
    intro i st fetched out h
    unfold addMissingLoop at h
    split at h
    · split at h
      next bi hbi =>
        rw [ih _ _ _ _ h]
      next hbi =>
        split at h
        next raw hraw =>
          split at h
          next hsb => exact absurd h (by simp)
          next st1 hsb =>
            split at h
            next bi2 hbi2 =>
              rw [ih _ _ _ _ h]
              show st1.initialized = st.initialized
              exact set_block_info_initialized _ _ _ _ hsb
            next hbi2 =>
              have ho := Option.some.inj h
              rw [← ho]
              exact set_block_info_initialized _ _ _ _ hsb
        next hraw =>
          have ho := Option.some.inj h
          rw [← ho]
    · have ho := Option.some.inj h
      rw [← ho]

theorem processLoop_initialized (env : EmitEnv) (fbtp : Nat) :
    ∀ (L : List Nat) (st : State) (em : List Emitted) (out : State × Bool × List Emitted),
      processLoop env fbtp L st em = some out → out.1.initialized = st.initialized := by
  intro L
  induction L with
  | nil =>
    intro st em out h
    unfold processLoop at h
    have ho := Option.some.inj h
    rw [← ho]
  | cons s rest ih =>
    intro st em out h
    unfold processLoop at h
    split at h
    · exact ih _ _ _ h
    · split at h
      next hbi =>
        have ho := Option.some.inj h
        rw [← ho]
      next block_info hbi =>
        split at h
        · split at h
          next hr => exact absurd h (by simp)
          next r hr =>
            have ho := Option.some.inj h
            rw [← ho]
            show r.1.initialized = st.initialized
            unfold State.add_missing_slots_to_confirmed_slots at hr
            exact addMissingLoop_initialized _ _ _ _ _ _ _ _ hr
        · split at h
          · split at h
            · have ho := Option.some.inj h
              rw [← ho]
              show ((st.remove_trxs s).emit_success s block_info).initialized = st.initialized
              rw [emit_success_initialized]
              rfl
            · rw [ih _ _ _ h]
              rw [emit_success_initialized]
              rfl
          · have ho := Option.some.inj h
            rw [← ho]
            rfl

/-- Claim C5 (amended): the `initialized` flag of the state returned by
`process_upto` is true iff it was already true or the three gates
(`first_block_to_process`, `first_received_blockmeta`, LIB) are all set
and the target slot equals `first_received_blockmeta` — the flag is set
when the loop is entered, regardless of whether that slot (or anything)
is successfully emitted. -/
theorem claim_C5 (env : EmitEnv) (st : State) (slot : Nat)
    (out : State × Bool × List Emitted) (h : st.process_upto env slot = some out) :
    (out.1.initialized = true ↔
      (st.initialized = true ∨
        (st.first_block_to_process.isSome = true ∧
          st.first_received_blockmeta = some slot ∧ st.lib.isSome = true))) := by
  unfold State.process_upto at h
  split at h
  next hfb =>
    have ho := Option.some.inj h
    rw [← ho]
    simp [hfb]
  next f hfb =>
    split at h
    next hfr =>
      have ho := Option.some.inj h
      rw [← ho]
      simp [hfr]
    next fr hfr =>
      split at h
      next hl =>
        have ho := Option.some.inj h
        rw [← ho]
        simp [hl]
      next l hl =>
        have hi := processLoop_initialized env f _ _ _ _ h
        rw [hi]
        by_cases hbeq : slot = fr
        · subst hbeq
          have : (slot == slot) = true := by simp
          rw [this]
          simp [hfb, hfr, hl]
        · have : (slot == fr) = false := by
            simp [hbeq]
          rw [this]
          simp only [Bool.false_eq_true, if_false]
          constructor
          · intro hinit
            exact Or.inl hinit
          · intro hd
            rcases hd with hinit | ⟨_, hfr2, _⟩
            · exact hinit
            · rw [hfr] at hfr2
              exact absurd (Option.some.inj hfr2).symm hbeq


/-- Witness for the amended C5 at the concrete run of the C5 scenario
(slot 100, empty ConfirmedSet). -/
theorem claim_C5_witness :
    ∃ out, c5st1.process_upto envOk 100 = some out ∧
      (out.1.initialized = true ↔
        (c5st1.initialized = true ∨
          (c5st1.first_block_to_process.isSome = true ∧
            c5st1.first_received_blockmeta = some 100 ∧ c5st1.lib.isSome = true))) :=
  ⟨_, rfl, claim_C5 envOk c5st1 100 _ rfl⟩

/-! ### Claim C8 (amended) -/

/-- Claim C8 (amended): within a slot that already buffers key `k` with
entry `prev`, a call with `write_version` lower than `prev`'s leaves the
state unchanged; a call with `write_version ≥ prev`'s that is not
deleted and whose `data_hash` matches the DataHashTable entry is also
dropped (so the retained entry may keep a lower write version than the
maximum seen); otherwise the call replaces the buffered entry, so the
retained entry carries the new, maximal `write_version`. -/
theorem claim_C8 (st : State) (slot : Nat) (k d o : Bytes) (wv : Nat) (del : Bool)
    (dh : Nat) (entries : AccountChanges) (prev : AccountWithWriteVersion)
    (hslot : fmLookup st.block_account_changes slot = some entries)
    (hprev : fmLookup entries k = some prev) :
    (wv < prev.write_version → st.set_account slot k d o wv del false dh = some st) ∧
    (prev.write_version ≤ wv → del = false →
      fmLookup st.account_data_hash k = some dh →
      st.set_account slot k d o wv del false dh = some st) ∧
    (prev.write_version ≤ wv →
      (del = true ∨ fmLookup st.account_data_hash k ≠ some dh) →
      ∃ st2, st.set_account slot k d o wv del false dh = some st2 ∧
        fmLookup ((fmLookup st2.block_account_changes slot).getD []) k =
          some { account := { address := k, data := d, owner := o, deleted := del }
                 write_version := wv }) := by
  have hpurge : st.set_account slot k d o wv del false dh =
      some (set_account_tail st slot k d o wv del dh) := by
    simp [State.set_account, hslot]
  refine ⟨?_, ?_, ?_⟩
  · intro hlt
    have htail : set_account_tail st slot k d o wv del dh = st := by
      simp [set_account_tail, hslot, hprev, hlt]
    rw [hpurge, htail]
  · intro hle hdel htab
    have hnlt : ¬ wv < prev.write_version := by omega
    have htail : set_account_tail st slot k d o wv del dh = st := by
      simp [set_account_tail, hslot, hprev, hnlt, hdel, htab]
    rw [hpurge, htail]
  · intro hle hcond
    have hnlt : ¬ wv < prev.write_version := by omega
    have htail : set_account_tail st slot k d o wv del dh =
        { st with
          account_data_hash := fmInsert st.account_data_hash k dh
          block_account_changes :=
            fmInsert st.block_account_changes slot (fmInsert entries k
              { account := { address := k, data := d, owner := o, deleted := del }
                write_version := wv }) } := by
      rcases hcond with hdel | htab
      · simp [set_account_tail, hslot, hprev, hnlt, hdel]
      · cases hd : del with
        | true => simp [set_account_tail, hslot, hprev, hnlt, hd]
        | false =>
          cases htb : fmLookup st.account_data_hash k with
          | none => simp [set_account_tail, hslot, hprev, hnlt, hd, htb]
          | some hsh =>
            have hne : hsh ≠ dh := by
              intro hcontra
              rw [htb, hcontra] at htab
              exact htab rfl
            have hbeq : (hsh == dh) = false := by
              simp [hne]
            simp [set_account_tail, hslot, hprev, hnlt, hd, htb, hbeq]
    rw [hpurge, htail]
    refine ⟨_, rfl, ?_⟩
    show fmLookup ((fmLookup (fmInsert st.block_account_changes slot (fmInsert entries k
        { account := { address := k, data := d, owner := o, deleted := del }
          write_version := wv })) slot).getD []) k =
      some { account := { address := k, data := d, owner := o, deleted := del }
             write_version := wv }
    rw [fmLookup_fmInsert, if_pos rfl]
    show fmLookup (fmInsert entries k
        { account := { address := k, data := d, owner := o, deleted := del }
          write_version := wv }) k =
      some { account := { address := k, data := d, owner := o, deleted := del }
             write_version := wv }
    rw [fmLookup_fmInsert, if_pos rfl]

/-- The buffered entry of the C8 witness state: key `kk`, version 3. -/
def awvW : AccountWithWriteVersion :=
  { account := { address := kk, data := [9], owner := [2], deleted := false }
    write_version := 3 }

/-- The slot-101 buffer of the C8 witness state. -/
def entW : AccountChanges := [(kk, awvW)]

/-- The C8 witness state: slot 101 buffers `kk` at version 3 and the
DataHashTable maps `kk` to 7. -/
def stW8 : State :=
  { State.new none with
      block_account_changes := [(101, entW)]
      account_data_hash := [(kk, 7)] }

/-- Witness for the amended C8: an older write is dropped, a
redundant-data write at a higher version is dropped, and a changed-data
write at a higher version replaces the entry. -/
theorem claim_C8_witness :
    stW8.set_account 101 kk [9] [2] 2 false false 7 = some stW8 ∧
    stW8.set_account 101 kk [9] [2] 5 false false 7 = some stW8 ∧
    ∃ st2, stW8.set_account 101 kk [8] [2] 5 false false 9 = some st2 ∧
      fmLookup ((fmLookup st2.block_account_changes 101).getD []) kk =
        some { account := { address := kk, data := [8], owner := [2], deleted := false }
               write_version := 5 } :=
  ⟨(claim_C8 stW8 101 kk [9] [2] 2 false 7 entW awvW rfl rfl).1 (by decide),
   (claim_C8 stW8 101 kk [9] [2] 5 false 7 entW awvW rfl rfl).2.1 (by decide) rfl rfl,
   (claim_C8 stW8 101 kk [8] [2] 5 false 9 entW awvW rfl rfl).2.2 (by decide)
     (Or.inr (by decide))⟩

end Geyser
